import Mathlib

/-!
# Verification of the Telethon object serialization module

Shallow embedding of `src/telethon_serialization.py`: a generic recursive
codec that turns protocol-message objects into tagged JSON mappings and
back.  Python runtime values are modelled by the inductive `PyVal`; the
module's process-wide mutable state (`_PATCHED_CLASS_NAMES`,
`_CLASS_CACHE`, `_PATCH_CALLED`, and the current `to_dict` behaviour of
each class) is modelled by `PatchState`, threaded explicitly.  Fallible
Python code returns `Except Err`; `Err` mirrors the Python exception
types raised by the module.  The JSON text layer (`json.dumps` /
`json.loads`) is external to the repository, so a dump is modelled as the
parse tree `Json` paired with the formatting flags (`Dumped`);
`json.loads` ignores formatting, and duplicate keys in a parsed object
follow Python semantics (later value wins, first position kept).
-/

set_option autoImplicit false

/-- Python exceptions raised by the module, by exception type plus message. -/
inductive Err where
  | runtimeError (msg : String)
  | valueError (msg : String)
  | typeError (msg : String)
  | keyError (key : String)
  | attributeError (msg : String)
deriving Repr, DecidableEq

/-- A constructible protocol-message class, as the module sees it.
`module_name`/`qualname` give the identifying names; `nativeTag` is the
value the class's original (unpatched) `to_dict` stores under the
reserved key `"_"` (for genuine Telethon classes this is the class's own
short name); `isTLObject` records whether the class is a `TLObject`
subclass; `ancestors` lists the full names of its proper superclasses
(for `isinstance` checks); `fieldNames` is the keyword-construction
signature, in declaration order.  The last four fields model the external
protocol library's behaviour, which the spec treats as an opaque provider
of a describe-as-mapping operation and a keyword constructor. -/
structure PClass where
  module_name : String
  qualname : String
  nativeTag : String
  isTLObject : Bool
  ancestors : List String
  fieldNames : List String
deriving Repr, DecidableEq

/-- `full_class_name`: the globally unique Type Identifier of a class. -/
def full_class_name (c : PClass) : String := c.module_name ++ "." ++ c.qualname

/-- The module's process-wide state: the set of patched full names, the
class registry, the per-class count of installed `to_dict` wrap layers
(0 = native behaviour, 1 = wrapped once), and the `_PATCH_CALLED` flag. -/
structure PatchState where
  patched_class_names : List String
  class_cache : List (String × PClass)
  wrap_depth : List (String × Nat)
  patch_called : Bool
deriving Repr, DecidableEq

/-- The state before any initialization. -/
def initial_state : PatchState := ⟨[], [], [], false⟩

/-- Python `dict.get`: first binding of a key in an association list
(association lists modelling Python dicts have unique keys). -/
def assocGet {α : Type} : List (String × α) → String → Option α
  | [], _ => Option.none
  | (k', v) :: rest, k => if k' = k then some v else assocGet rest k

/-- Remove the first binding of a key (Python `dict.pop` on unique keys). -/
def removeKey {α : Type} : List (String × α) → String → List (String × α)
  | [], _ => []
  | (k', v) :: rest, k => if k' = k then rest else (k', v) :: removeKey rest k

/-- Python `d[k] = v` on a dict: replace the value in place if the key is
present, otherwise append the binding at the end. -/
def updateAssoc {α : Type} : List (String × α) → String → α → List (String × α)
  | [], k, v => [(k, v)]
  | (k', v') :: rest, k, v => if k' = k then (k, v) :: rest else (k', v') :: updateAssoc rest k v

/-- Keys of a dict, in order. -/
def keysOf {α : Type} (es : List (String × α)) : List String := es.map Prod.fst

/-- Python runtime values the codec handles: the supported value kinds.
Timestamps are abstract instants (`datetime`), raw byte blobs are lists
of byte values, floats are abstract (their payload is never computed
with).  `obj` is a typed protocol-message object holding its class and
its field assignments in declaration order.  `dict` models a Python dict
and therefore has unique keys whenever it denotes a real runtime value. -/
inductive PyVal where
  | none
  | bool (b : Bool)
  | int (n : Int)
  | float (payload : Int)
  | str (s : String)
  | bytes (bs : List Nat)
  | datetime (d : Nat)
  | list (xs : List PyVal)
  | dict (es : List (String × PyVal))
  | obj (cls : PClass) (fields : List (String × PyVal))
deriving Repr

/-- JSON parse trees: what `json.dumps` writes and `json.loads` reads.
The textual rendering itself is external; `num`/`fnum` carry the integer
and abstract-float payloads. -/
inductive Json where
  | null
  | bool (b : Bool)
  | num (n : Int)
  | fnum (payload : Int)
  | str (s : String)
  | arr (xs : List Json)
  | obj (es : List (String × Json))
deriving Repr

/-- A value returned by `json.dumps`: the tree together with the
formatting flags (`ensure_ascii` escaping and the optional indent),
which affect only the external textual rendering. -/
structure Dumped where
  tree : Json
  ensureAscii : Bool
  indent : Option Nat
deriving Repr

/-- Modelled from the spec: the external ISO-8601 rendering
`datetime.isoformat` of an abstract instant, an injective textual
encoding inverted by `datetime_fromisoformat`. -/
def datetime_isoformat (d : Nat) : String := String.mk (List.replicate d 'T')

/-- Modelled from the spec: the external parser `datetime.fromisoformat`,
inverse of `datetime_isoformat`; any string outside its image fails with
a `ValueError`. -/
def datetime_fromisoformat (s : String) : Except Err Nat :=
  if s.data.all (fun c => c = 'T') then .ok s.data.length
  else .error (.valueError ("Invalid isoformat string: " ++ s))

/-- Chunked unary rendering used to model base64 text: each byte becomes
a run of markers closed by a separator. -/
def base64Chunks : List Nat → List Char
  | [] => []
  | n :: rest => List.replicate n 'A' ++ ',' :: base64Chunks rest

/-- Modelled from the spec: the external `base64.encodebytes(..).decode()`
rendering of a byte sequence, an injective textual encoding inverted by
`base64_decodebytes`. -/
def base64_encodebytes (bs : List Nat) : String := String.mk (base64Chunks bs)

/-- State machine reading back the chunked rendering. -/
def base64DecodeChars : List Char → Nat → Except Err (List Nat)
  | [], 0 => .ok []
  | [], _ + 1 => .error (.valueError "Invalid base64-encoded string")
  | c :: rest, acc =>
    if c = 'A' then base64DecodeChars rest (acc + 1)
    else if c = ',' then (fun l => acc :: l) <$> base64DecodeChars rest 0
    else .error (.valueError "Invalid base64-encoded string")

/-- Modelled from the spec: the external `base64.decodebytes`, inverse of
`base64_encodebytes`. -/
def base64_decodebytes (s : String) : Except Err (List Nat) :=
  base64DecodeChars s.data 0

/-- The `RuntimeError` raised by `_check_patch_was_applied`. -/
def no_patch_message : String :=
  "No patched classes found. Did you forgot to call patch_telethon_classes()?"

/-- `_check_patch_was_applied`: state guard of every registry query. -/
def _check_patch_was_applied (s : PatchState) : Except Err Unit :=
  if s.patch_called then .ok () else .error (.runtimeError no_patch_message)

/-- `_patch_to_dict_method`: skip (with a logged warning) anything that is
not a `TLObject` subclass; skip silently a full name already patched;
otherwise record the name, install one wrap layer around the class's
current `to_dict`, and register the class in the cache.  Note that the
native-tag consistency check lives inside the installed wrapper
(`new_to_dict`) and therefore runs when `to_dict` is called, not here. -/
def _patch_to_dict_method (s : PatchState) (klass : PClass) : PatchState :=
  let full := full_class_name klass
  if ¬ klass.isTLObject then s
  else if full ∈ s.patched_class_names then s
  else
    { s with
      patched_class_names := full :: s.patched_class_names,
      wrap_depth := (full, ((assocGet s.wrap_depth full).getD 0) + 1) :: s.wrap_depth,
      class_cache := (full, klass) :: s.class_cache }

/-- Number of wrap layers currently installed on a class's `to_dict`. -/
def depthOf (s : PatchState) (c : PClass) : Nat :=
  (assocGet s.wrap_depth (full_class_name c)).getD 0

/-- One layer of `new_to_dict` around an inner `to_dict` result: check the
reserved key against the class's short name, then rewrite it to the full
Type Identifier.  A missing reserved key is a `KeyError`; a mismatching
(or non-string, hence unequal) value is the `ValueError`. -/
def wrapOnce (c : PClass) (r : List (String × PyVal)) : Except Err (List (String × PyVal)) :=
  match assocGet r "_" with
  | some (.str t) =>
    if t = c.qualname then .ok (updateAssoc r "_" (.str (full_class_name c)))
    else .error (.valueError ("class name mismatch: dump=" ++ t ++ ", class=" ++ c.qualname))
  | some _ => .error (.valueError ("class name mismatch: dump=?, class=" ++ c.qualname))
  | Option.none => .error (.keyError "_")

/-- `n` wrap layers applied outside-in to the native `to_dict` result. -/
def wrapIter (c : PClass) : Nat → List (String × PyVal) → Except Err (List (String × PyVal))
  | 0, r => .ok r
  | n + 1, r => do
    let r' ← wrapIter c n r
    wrapOnce c r'

mutual

/-- Modelled from the spec: the external protocol library's native
describe-as-mapping behaviour applied to one value while describing a
containing object — nested typed objects are described (through their
class's current, possibly wrapped, `to_dict`), sequences and mappings are
walked recursively, leaves pass through. -/
def dictifyVal (s : PatchState) : PyVal → Except Err PyVal
  | .obj c fs => do
    let es ← dictifyEntries s fs
    let r ← wrapIter c (depthOf s c) (("_", .str c.nativeTag) :: es)
    pure (.dict r)
  | .list xs => do
    let ys ← dictifyList s xs
    pure (.list ys)
  | .dict es => do
    let ys ← dictifyEntries s es
    pure (.dict ys)
  | v => pure v

def dictifyList (s : PatchState) : List PyVal → Except Err (List PyVal)
  | [] => pure []
  | x :: xs => do
    let y ← dictifyVal s x
    let ys ← dictifyList s xs
    pure (y :: ys)

def dictifyEntries (s : PatchState) : List (String × PyVal) → Except Err (List (String × PyVal))
  | [] => pure []
  | (k, v) :: rest => do
    let w ← dictifyVal s v
    let ws ← dictifyEntries s rest
    pure ((k, w) :: ws)

end

/-- `obj.to_dict()` for an object of class `c` with fields `fs`: the
native tagged mapping with every installed wrap layer applied. -/
def callObjToDict (s : PatchState) (c : PClass) (fs : List (String × PyVal)) :
    Except Err (List (String × PyVal)) := do
  let es ← dictifyEntries s fs
  wrapIter c (depthOf s c) (("_", .str c.nativeTag) :: es)

/-- `patch_telethon_classes`: fails on a second call, otherwise marks the
patch done and wraps every class found via the central registry
(`alltlobjects.tlobjects`) and via the direct-subclass scan. -/
def patch_telethon_classes (s : PatchState) (tlobjects subclasses : List PClass) :
    Except Err PatchState :=
  if s.patch_called then .error (.runtimeError "patch_telethon_classes already called")
  else
    let s1 := { s with patch_called := true }
    let s2 := tlobjects.foldl _patch_to_dict_method s1
    .ok (subclasses.foldl _patch_to_dict_method s2)

/-- `report_same_basename_classes`: requires initialization, then groups
the patched full names by trailing short name and reports the groups of
two or more (returned here; the source logs them). -/
def report_same_basename_classes (s : PatchState) : Except Err (List (String × List String)) := do
  _check_patch_was_applied s
  let stats := s.patched_class_names.foldl
    (fun acc full =>
      let basename := (full.splitOn ".").getLastD full
      match assocGet acc basename with
      | some fulls => updateAssoc acc basename (fulls ++ [full])
      | Option.none => updateAssoc acc basename [full]) []
  pure (stats.filter (fun g => 2 ≤ g.2.length))

/-- `get_telethon_class`: registry lookup, `ValueError` when absent. -/
def get_telethon_class (s : PatchState) (class_name : String) : Except Err PClass := do
  _check_patch_was_applied s
  match assocGet s.class_cache class_name with
  | some c => .ok c
  | Option.none => .error (.valueError ("unknown class: " ++ class_name))

/-- Modelled from the spec: keyword construction `obj_class(**kwargs)` of
an external protocol class (spec §9, reflection-based field
reconstruction): it succeeds exactly when the keyword set matches the
class's declared field names, and the built object stores its fields in
declaration order. -/
def kwargs_match : List String → List String → Bool
  | [], [] => true
  | [], _ :: _ => false
  | k :: rest, ys => ys.contains k && kwargs_match rest (ys.erase k)

/-- Modelled from the spec: instantiating a class from keyword fields. -/
def construct_instance (c : PClass) (kwargs : List (String × PyVal)) : Except Err PyVal :=
  if kwargs_match (keysOf kwargs) c.fieldNames then
    .ok (.obj c (c.fieldNames.map (fun k => (k, (assocGet kwargs k).getD PyVal.none))))
  else .error (.typeError ("unexpected keyword arguments for " ++ full_class_name c))

mutual

/-- `restore_instance`: scalars (including `bool`, a Python `int`
subclass), byte blobs and timestamps pass through; lists recurse
element-wise; a dict first restores every value, then pops the reserved
key: absent or `None` gives back the plain mapping, a non-string value is
a `ValueError`, and a string is looked up in the registry and the class
instantiated from the remaining fields.  Anything else (a typed object
reaching the decoder) is the unsupported-type `TypeError`. -/
def restore_instance (s : PatchState) : PyVal → Except Err PyVal
  | .none => .ok .none
  | .bool b => .ok (.bool b)
  | .int n => .ok (.int n)
  | .float q => .ok (.float q)
  | .str t => .ok (.str t)
  | .bytes bs => .ok (.bytes bs)
  | .datetime d => .ok (.datetime d)
  | .list xs => do
    let ys ← restoreList s xs
    pure (.list ys)
  | .dict es => do
    let rd ← restoreEntries s es
    match assocGet rd "_" with
    | Option.none => pure (.dict rd)
    | some cname =>
      let rest := removeKey rd "_"
      match cname with
      | .none => pure (.dict rest)
      | .str nm => do
        let c ← get_telethon_class s nm
        construct_instance c rest
      | _ => .error (.valueError "value for \"_\" key should be str")
  | .obj _ _ => .error (.typeError "unsupported type")

def restoreList (s : PatchState) : List PyVal → Except Err (List PyVal)
  | [] => pure []
  | x :: xs => do
    let y ← restore_instance s x
    let ys ← restoreList s xs
    pure (y :: ys)

def restoreEntries (s : PatchState) : List (String × PyVal) → Except Err (List (String × PyVal))
  | [] => pure []
  | (k, v) :: rest => do
    let w ← restore_instance s v
    let ws ← restoreEntries s rest
    pure ((k, w) :: ws)

end

/-- `default_json_helper`: the `json.dumps` fallback for values the
generic encoder cannot represent — timestamps and byte blobs become
their one-object scalar-codec forms, anything else (here: a typed
object) is the not-serializable `TypeError`. -/
def default_json_helper : PyVal → Except Err Json
  | .datetime d => .ok (.obj [("_isoformat", .str (datetime_isoformat d))])
  | .bytes bs => .ok (.obj [("_base64", .bool true), ("encoded", .str (base64_encodebytes bs))])
  | _ => .error (.typeError "default_json_helper: object is not serializable")

mutual

/-- The tree-level behaviour of `json.dumps`: native JSON kinds are
rendered structurally, everything else goes through
`default_json_helper`. -/
def json_dumps_val : PyVal → Except Err Json
  | .none => .ok .null
  | .bool b => .ok (.bool b)
  | .int n => .ok (.num n)
  | .float q => .ok (.fnum q)
  | .str t => .ok (.str t)
  | .list xs => do
    let ys ← json_dumps_list xs
    pure (.arr ys)
  | .dict es => do
    let ys ← json_dumps_entries es
    pure (.obj ys)
  | v => default_json_helper v

def json_dumps_list : List PyVal → Except Err (List Json)
  | [] => pure []
  | x :: xs => do
    let y ← json_dumps_val x
    let ys ← json_dumps_list xs
    pure (y :: ys)

def json_dumps_entries : List (String × PyVal) → Except Err (List (String × Json))
  | [] => pure []
  | (k, v) :: rest => do
    let w ← json_dumps_val v
    let ws ← json_dumps_entries rest
    pure ((k, w) :: ws)

end

/-- Python `x is None` on a runtime value. -/
def pyIsNone : PyVal → Bool
  | .none => true
  | _ => false

/-- `object_hook_json_helper`: inspect a decoded plain JSON object.  A
non-`None` `_isoformat` value is parsed as a timestamp; otherwise a
non-`None` `_base64` value selects the byte decoding of the `encoded`
value (a missing `encoded` key is a `KeyError`, a non-string one an
`AttributeError`); otherwise the mapping is returned unchanged. -/
def object_hook_json_helper (obj : List (String × PyVal)) : Except Err PyVal :=
  let iso := (assocGet obj "_isoformat").getD PyVal.none
  if ¬ pyIsNone iso then
    match iso with
    | .str t => (fun d => PyVal.datetime d) <$> datetime_fromisoformat t
    | _ => .error (.typeError "fromisoformat: argument must be str")
  else
    let b64 := (assocGet obj "_base64").getD PyVal.none
    if ¬ pyIsNone b64 then
      match assocGet obj "encoded" with
      | some (.str e) => (fun bs => PyVal.bytes bs) <$> base64_decodebytes e
      | some _ => .error (.attributeError "encode")
      | Option.none => .error (.keyError "encoded")
    else .ok (.dict obj)

/-- Python dict construction from parsed JSON entries: later duplicate
keys overwrite earlier values in place. -/
def dedupEntries {α : Type} (es : List (String × α)) : List (String × α) :=
  es.foldl (fun acc kv => updateAssoc acc kv.1 kv.2) []

mutual

/-- The tree-level behaviour of `json.loads` with
`object_hook=object_hook_json_helper`: scalars map to their Python
kinds, arrays recurse, and every object is built bottom-up (all entry
values parsed, duplicates resolved Python-style) and then passed through
the object hook. -/
def json_loads_val : Json → Except Err PyVal
  | .null => .ok .none
  | .bool b => .ok (.bool b)
  | .num n => .ok (.int n)
  | .fnum q => .ok (.float q)
  | .str t => .ok (.str t)
  | .arr xs => do
    let ys ← json_loads_list xs
    pure (.list ys)
  | .obj es => do
    let ps ← json_loads_entries es
    object_hook_json_helper (dedupEntries ps)

def json_loads_list : List Json → Except Err (List PyVal)
  | [] => pure []
  | x :: xs => do
    let y ← json_loads_val x
    let ys ← json_loads_list xs
    pure (y :: ys)

def json_loads_entries : List (String × Json) → Except Err (List (String × PyVal))
  | [] => pure []
  | (k, v) :: rest => do
    let w ← json_loads_val v
    let ws ← json_loads_entries rest
    pure ((k, w) :: ws)

end

/-- `tl_obj_to_string`: state guard, `obj.to_dict()`, then `json.dumps`
with the given flags (defaults: escape non-ASCII, no indentation). -/
def tl_obj_to_string (s : PatchState) (cls : PClass) (fields : List (String × PyVal))
    (ensure_ascii : Bool := true) (indent : Option Nat := Option.none) : Except Err Dumped := do
  _check_patch_was_applied s
  let obj_dict ← callObjToDict s cls fields
  let tree ← json_dumps_val (.dict obj_dict)
  pure ⟨tree, ensure_ascii, indent⟩

/-- `tl_obj_from_string`: state guard, `json.loads` with the object hook,
`restore_instance`, and the final top-level `TLObject` type check. -/
def tl_obj_from_string (s : PatchState) (dump : Dumped) : Except Err PyVal := do
  _check_patch_was_applied s
  let restored_dict ← json_loads_val dump.tree
  let restored_obj ← restore_instance s restored_dict
  match restored_obj with
  | .obj c fs =>
    if c.isTLObject then .ok (.obj c fs)
    else .error (.typeError "restored object is not descendant of TLObject")
  | _ => .error (.typeError "restored object is not descendant of TLObject")

/-- Modelled from the spec: the external `TLObject.stringify`, the
human-readable rendering used in the verifier's logging — a pretty-print
of the object's describe-as-mapping form, failing exactly when the
(possibly wrapped) `to_dict` fails.  The text itself is irrelevant. -/
def stringify (s : PatchState) (c : PClass) (fs : List (String × PyVal)) : Except Err Unit := do
  let _ ← callObjToDict s c fs
  pure ()

/-- `isinstance(x, klass)` for objects: the object's class is `klass`
itself or has it among its proper superclasses. -/
def isinstanceOf (c target : PClass) : Bool :=
  c = target || (c.ancestors.contains (full_class_name target))

mutual

/-- Python `==` on the modelled runtime values: scalars compare by kind
and payload, lists element-wise, dicts as unordered key-value maps of
equal size, objects by class and fields.  (Python's cross-kind numeric
equalities are not modelled; floats are abstract.) -/
def pyEq : PyVal → PyVal → Bool
  | .none, .none => true
  | .bool a, .bool b => a = b
  | .int a, .int b => a = b
  | .float a, .float b => a = b
  | .str a, .str b => a = b
  | .bytes a, .bytes b => a = b
  | .datetime a, .datetime b => a = b
  | .list xs, .list ys => pyEqList xs ys
  | .dict a, .dict b => a.length = b.length && pyEqEntries a b
  | .obj c fs, .obj c' fs' => c = c' && fs.length = fs'.length && pyEqEntries fs fs'
  | _, _ => false

def pyEqList : List PyVal → List PyVal → Bool
  | [], [] => true
  | x :: xs, y :: ys => pyEq x y && pyEqList xs ys
  | _, _ => false

def pyEqEntries : List (String × PyVal) → List (String × PyVal) → Bool
  | [], _ => true
  | (k, v) :: rest, b =>
    (match assocGet b k with
     | some w => pyEq v w
     | Option.none => false) && pyEqEntries rest b

end

/-- The keys given a special meaning by the wire format: the type tag and
the two scalar-codec markers. -/
def reservedKey (k : String) : Bool := k = "_" || k = "_isoformat" || k = "_base64"

/-- No key occurs twice (the invariant of association lists denoting
Python dicts or parsed JSON objects). -/
def nodupKeys : List String → Bool
  | [] => true
  | k :: rest => decide (¬ k ∈ rest) && nodupKeys rest

/-- A class that initialization has registered and wrapped coherently:
it is cached under its own Type Identifier, carries exactly one wrap
layer, its native tag agrees with its short name, it is a `TLObject`
subclass, and its field names are duplicate-free and avoid the reserved
keys. -/
def goodClass (s : PatchState) (c : PClass) : Bool :=
  decide (assocGet s.class_cache (full_class_name c) = some c)
  && decide (depthOf s c = 1)
  && decide (c.nativeTag = c.qualname)
  && c.isTLObject
  && nodupKeys c.fieldNames
  && c.fieldNames.all (fun k => !(reservedKey k))

mutual

/-- A value built from the supported value kinds whose typed objects all
belong to coherently wrapped classes and whose untagged mappings have
duplicate-free keys avoiding the reserved keys. -/
def goodVal (s : PatchState) : PyVal → Bool
  | .list xs => goodList s xs
  | .dict es =>
    nodupKeys (keysOf es) && (keysOf es).all (fun k => !(reservedKey k)) && goodEntries s es
  | .obj c fs => goodClass s c && decide (keysOf fs = c.fieldNames) && goodEntries s fs
  | _ => true

def goodList (s : PatchState) : List PyVal → Bool
  | [] => true
  | x :: xs => goodVal s x && goodList s xs

def goodEntries (s : PatchState) : List (String × PyVal) → Bool
  | [] => true
  | (_, v) :: rest => goodVal s v && goodEntries s rest

end

mutual

/-- A JSON document that mentions none of the reserved keys and has
duplicate-free object keys: it decodes to the corresponding plain value
and is left alone by both the object hook and `restore_instance`. -/
def plainDoc : Json → Bool
  | .arr xs => plainArr xs
  | .obj es =>
    nodupKeys (keysOf es) && (keysOf es).all (fun k => !(reservedKey k)) && plainEntries es
  | _ => true

def plainArr : List Json → Bool
  | [] => true
  | x :: xs => plainDoc x && plainArr xs

def plainEntries : List (String × Json) → Bool
  | [] => true
  | (_, v) :: rest => plainDoc v && plainEntries rest

end

/-- A sample registered class with two fields. -/
def sampleClass : PClass := ⟨"m", "C", "C", true, [], ["f", "g"]⟩

/-- A state in which initialization has registered `sampleClass`. -/
def sampleState : PatchState :=
  ⟨["m.C"], [("m.C", sampleClass)], [("m.C", 1)], true⟩

/-- A class whose original `to_dict` stores a tag that differs from its
short name. -/
def mismatchClass : PClass := ⟨"m", "D", "X", true, [], []⟩

/-- A state in which initialization has wrapped `mismatchClass` (and
`sampleClass`). -/
def mismatchState : PatchState :=
  ⟨["m.D", "m.C"], [("m.D", mismatchClass), ("m.C", sampleClass)], [("m.D", 1), ("m.C", 1)], true⟩

/-- An unpatched class whose original `to_dict` emits, as its tag, the
full Type Identifier of `subClassB` — a class that lists `superClassA`
among its superclasses. -/
def superClassA : PClass := ⟨"m", "A", "m.B", true, [], ["x"]⟩

/-- A registered subclass of `superClassA` with the same field. -/
def subClassB : PClass := ⟨"m", "B", "B", true, ["m.A"], ["x"]⟩

/-- A state in which initialization found and wrapped only `subClassB`. -/
def subclassState : PatchState := ⟨["m.B"], [("m.B", subClassB)], [("m.B", 1)], true⟩

/-- A state where the patch flag is set but nothing is wrapped yet. -/
def emptyPatchedState : PatchState := ⟨[], [], [], true⟩

/-- The `try` block of `check_telethon_obj_serialization`: log the
object, encode it without ASCII escaping, decode the result, report
`False` on a class mismatch (`isinstance` against the original's class),
and compare the two `to_dict` descriptions (logging both renderings when
they differ). -/
def check_body (s : PatchState) (c : PClass) (fs : List (String × PyVal)) : Except Err Bool := do
  let _ ← stringify s c fs
  let obj_dump ← tl_obj_to_string s c fs false Option.none
  let restored ← tl_obj_from_string s obj_dump
  match restored with
  | .obj rc rfs =>
    if ¬ isinstanceOf rc c then pure false
    else do
      let d1 ← callObjToDict s c fs
      let d2 ← callObjToDict s rc rfs
      if pyEq (.dict d1) (.dict d2) then pure true
      else do
        let _ ← stringify s c fs
        let _ ← stringify s rc rfs
        pure false
  | _ => pure false

/-- `check_telethon_obj_serialization`: run the `try` block and catch
every exception it raises — the `except` handler logs the original
object's human-readable rendering (which can itself raise) before
returning `False`. -/
def check_telethon_obj_serialization (s : PatchState) (c : PClass)
    (fs : List (String × PyVal)) : Except Err Bool :=
  match check_body s c fs with
  | .ok b => .ok b
  | .error _ =>
    match stringify s c fs with
    | .ok _ => .ok false
    | .error e2 => .error e2

/-! ## Basic lemmas about the `Except` monad and the dict helpers -/

@[simp] theorem err_bind_ok {α β : Type} (a : α) (f : α → Except Err β) :
    (Except.ok a >>= f : Except Err β) = f a := rfl

@[simp] theorem err_bind_error {α β : Type} (e : Err) (f : α → Except Err β) :
    (Except.error e >>= f : Except Err β) = Except.error e := rfl

@[simp] theorem err_map_ok {α β : Type} (f : α → β) (a : α) :
    (f <$> (Except.ok a : Except Err α)) = Except.ok (f a) := rfl

@[simp] theorem err_map_error {α β : Type} (f : α → β) (e : Err) :
    (f <$> (Except.error e : Except Err α)) = Except.error e := rfl

@[simp] theorem err_pure {α : Type} (a : α) :
    (pure a : Except Err α) = Except.ok a := rfl

theorem assocGet_of_not_mem {α : Type} (k : String) :
    ∀ es : List (String × α), ¬ k ∈ keysOf es → assocGet es k = Option.none := by
  intro es
  induction es with
  | nil => intro _; rfl
  | cons kv rest ih =>
    intro h
    obtain ⟨k', v⟩ := kv
    simp only [keysOf, List.map_cons, List.mem_cons] at h
    push_neg at h
    simp [assocGet, Ne.symm h.1, ih (by simpa [keysOf] using h.2)]

theorem nodupKeys_iff (l : List String) : nodupKeys l = true ↔ l.Nodup := by
  induction l with
  | nil => simp [nodupKeys]
  | cons k rest ih => simp [nodupKeys, ih, List.nodup_cons]

theorem updateAssoc_of_not_mem {α : Type} (k : String) (v : α) :
    ∀ es : List (String × α), ¬ k ∈ keysOf es → updateAssoc es k v = es ++ [(k, v)] := by
  intro es
  induction es with
  | nil => intro _; rfl
  | cons kv rest ih =>
    intro h
    obtain ⟨k', v'⟩ := kv
    simp only [keysOf, List.map_cons, List.mem_cons] at h
    push_neg at h
    simp [updateAssoc, Ne.symm h.1, ih (by simpa [keysOf] using h.2)]

theorem dedup_go {α : Type} :
    ∀ (es acc : List (String × α)), (keysOf acc ++ keysOf es).Nodup →
      es.foldl (fun a kv => updateAssoc a kv.1 kv.2) acc = acc ++ es := by
  intro es
  induction es with
  | nil => intro acc _; simp
  | cons kv rest ih =>
    intro acc h
    obtain ⟨k, v⟩ := kv
    have hk : ¬ k ∈ keysOf acc := by
      intro hmem
      exact (List.disjoint_of_nodup_append h) hmem (by simp [keysOf])
    have h' : (keysOf (acc ++ [(k, v)]) ++ keysOf rest).Nodup := by
      simp only [keysOf, List.map_append, List.map_cons, List.map_nil] at h ⊢
      simpa [List.append_assoc] using h
    simp only [List.foldl_cons, updateAssoc_of_not_mem k v acc hk]
    rw [ih (acc ++ [(k, v)]) h']
    simp

theorem dedupEntries_eq_self {α : Type} (es : List (String × α))
    (h : nodupKeys (keysOf es) = true) : dedupEntries es = es := by
  have := dedup_go es [] (by simpa [keysOf] using (nodupKeys_iff (keysOf es)).mp h)
  simpa [dedupEntries] using this

theorem canonicalFields (d : PyVal) :
    ∀ fs : List (String × PyVal), (keysOf fs).Nodup →
      (keysOf fs).map (fun k => (k, (assocGet fs k).getD d)) = fs := by
  intro fs
  induction fs with
  | nil => intro _; rfl
  | cons kv rest ih =>
    intro h
    obtain ⟨k, v⟩ := kv
    simp only [keysOf, List.map_cons] at h ⊢
    rw [List.nodup_cons] at h
    have tail : (List.map Prod.fst rest).map (fun k' => (k', (assocGet ((k, v) :: rest) k').getD d)) =
        (List.map Prod.fst rest).map (fun k' => (k', (assocGet rest k').getD d)) := by
      apply List.map_congr_left
      intro k' hk'
      have hne : ¬ k = k' := fun e => h.1 (e ▸ hk')
      simp [assocGet, hne]
    rw [tail]
    have hh : assocGet ((k, v) :: rest) k = some v := by simp [assocGet]
    rw [hh]
    have htl := ih h.2
    simp only [keysOf] at htl
    rw [htl]
    rfl

theorem kwargs_match_refl : ∀ l : List String, kwargs_match l l = true := by
  intro l
  induction l with
  | nil => rfl
  | cons k rest ih => simp [kwargs_match, List.contains_cons, List.erase_cons_head, ih]

/-! ## The modelled external scalar codecs invert each other -/

theorem datetime_round (d : Nat) :
    datetime_fromisoformat (datetime_isoformat d) = .ok d := by
  simp [datetime_isoformat, datetime_fromisoformat, String.all, String.data,
    List.all_eq_true, List.mem_replicate]

theorem base64_decode_replicate (n : Nat) :
    ∀ (acc : Nat) (rest : List Char),
      base64DecodeChars (List.replicate n 'A' ++ rest) acc = base64DecodeChars rest (acc + n) := by
  induction n with
  | zero => intro acc rest; simp
  | succ m ih =>
    intro acc rest
    have hstep : base64DecodeChars (List.replicate (m + 1) 'A' ++ rest) acc
        = base64DecodeChars (List.replicate m 'A' ++ rest) (acc + 1) := by
      simp [List.replicate_succ, base64DecodeChars]
    rw [hstep, ih (acc + 1) rest]
    congr 1
    omega

theorem base64_chunks_round : ∀ bs : List Nat, base64DecodeChars (base64Chunks bs) 0 = .ok bs := by
  intro bs
  induction bs with
  | nil => rfl
  | cons n rest ih =>
    simp only [base64Chunks]
    rw [base64_decode_replicate n 0 (',' :: base64Chunks rest)]
    simp only [base64DecodeChars, Nat.zero_add]
    norm_num
    simp [ih]

theorem base64_round (bs : List Nat) :
    base64_decodebytes (base64_encodebytes bs) = .ok bs := by
  simpa [base64_decodebytes, base64_encodebytes, String.data] using base64_chunks_round bs

/-! ## The entry-wise stages preserve keys and act pointwise on values -/

theorem keysOf_dictifyEntries (s : PatchState) :
    ∀ es ws, dictifyEntries s es = .ok ws → keysOf ws = keysOf es := by
  intro es
  induction es with
  | nil =>
    intro ws h
    simp only [dictifyEntries, err_pure] at h
    cases h
    rfl
  | cons kv rest ih =>
    intro ws h
    obtain ⟨k, v⟩ := kv
    simp only [dictifyEntries] at h
    cases hv : dictifyVal s v with
    | error e => rw [hv] at h; simp at h
    | ok w =>
      rw [hv] at h
      cases hr : dictifyEntries s rest with
      | error e => rw [hr] at h; simp at h
      | ok ws' =>
        rw [hr] at h
        simp only [err_bind_ok, err_pure, Except.ok.injEq] at h
        subst h
        simp only [keysOf, List.map_cons]
        have hks := ih ws' hr
        simp only [keysOf] at hks
        rw [hks]

theorem keysOf_json_dumps_entries :
    ∀ es ws, json_dumps_entries es = .ok ws → keysOf ws = keysOf es := by
  intro es
  induction es with
  | nil =>
    intro ws h
    simp only [json_dumps_entries, err_pure] at h
    cases h
    rfl
  | cons kv rest ih =>
    intro ws h
    obtain ⟨k, v⟩ := kv
    simp only [json_dumps_entries] at h
    cases hv : json_dumps_val v with
    | error e => rw [hv] at h; simp at h
    | ok w =>
      rw [hv] at h
      cases hr : json_dumps_entries rest with
      | error e => rw [hr] at h; simp at h
      | ok ws' =>
        rw [hr] at h
        simp only [err_bind_ok, err_pure, Except.ok.injEq] at h
        subst h
        simp only [keysOf, List.map_cons]
        have hks := ih ws' hr
        simp only [keysOf] at hks
        rw [hks]

theorem keysOf_json_loads_entries :
    ∀ es ws, json_loads_entries es = .ok ws → keysOf ws = keysOf es := by
  intro es
  induction es with
  | nil =>
    intro ws h
    simp only [json_loads_entries, err_pure] at h
    cases h
    rfl
  | cons kv rest ih =>
    intro ws h
    obtain ⟨k, v⟩ := kv
    simp only [json_loads_entries] at h
    cases hv : json_loads_val v with
    | error e => rw [hv] at h; simp at h
    | ok w =>
      rw [hv] at h
      cases hr : json_loads_entries rest with
      | error e => rw [hr] at h; simp at h
      | ok ws' =>
        rw [hr] at h
        simp only [err_bind_ok, err_pure, Except.ok.injEq] at h
        subst h
        simp only [keysOf, List.map_cons]
        have hks := ih ws' hr
        simp only [keysOf] at hks
        rw [hks]

theorem assocGet_json_loads_entries :
    ∀ es ws, json_loads_entries es = .ok ws →
      ∀ k v, assocGet es k = some v → ∃ w, assocGet ws k = some w ∧ json_loads_val v = .ok w := by
  intro es
  induction es with
  | nil => intro ws _ k v hv; cases hv
  | cons kv rest ih =>
    intro ws h k v hv
    obtain ⟨k', v'⟩ := kv
    simp only [json_loads_entries] at h
    cases hv' : json_loads_val v' with
    | error e => rw [hv'] at h; simp at h
    | ok w' =>
      rw [hv'] at h
      cases hr : json_loads_entries rest with
      | error e => rw [hr] at h; simp at h
      | ok ws' =>
        rw [hr] at h
        simp only [err_bind_ok, err_pure, Except.ok.injEq] at h
        subst h
        by_cases hk : k' = k
        · subst hk
          simp only [assocGet, if_pos rfl] at hv ⊢
          cases hv
          exact ⟨w', rfl, hv'⟩
        · simp only [assocGet, if_neg hk] at hv ⊢
          exact ih ws' hr k v hv

/-! ## The object hook and `json.loads` never produce a bare `None`
for a non-null document -/

theorem object_hook_ne_none (es : List (String × PyVal)) (w : PyVal)
    (h : object_hook_json_helper es = .ok w) : ¬ w = PyVal.none := by
  unfold object_hook_json_helper at h
  by_cases h1 : pyIsNone ((assocGet es "_isoformat").getD PyVal.none)
  · rw [if_neg (by simp [h1])] at h
    by_cases h2 : pyIsNone ((assocGet es "_base64").getD PyVal.none)
    · rw [if_neg (by simp [h2])] at h
      cases h
      intro hc
      cases hc
    · rw [if_pos (by simp [h2])] at h
      cases hg : assocGet es "encoded" with
      | none => rw [hg] at h; cases h
      | some ev =>
        rw [hg] at h
        cases ev with
        | str t =>
          have h' : ((fun bs => PyVal.bytes bs) <$> base64_decodebytes t) = Except.ok w := h
          cases hd : base64_decodebytes t with
          | error e => rw [hd] at h'; cases h'
          | ok bs =>
            rw [hd] at h'
            simp only [err_map_ok, Except.ok.injEq] at h'
            subst h'
            intro hc
            cases hc
        | none => cases h
        | bool b => cases h
        | int n => cases h
        | float q => cases h
        | bytes bs => cases h
        | datetime d => cases h
        | list xs => cases h
        | dict es' => cases h
        | obj c fs => cases h
  · rw [if_pos (by simp [h1])] at h
    cases hi : (assocGet es "_isoformat").getD PyVal.none with
    | str t =>
      rw [hi] at h
      have h' : ((fun d => PyVal.datetime d) <$> datetime_fromisoformat t) = Except.ok w := h
      cases hd : datetime_fromisoformat t with
      | error e => rw [hd] at h'; cases h'
      | ok d =>
        rw [hd] at h'
        simp only [err_map_ok, Except.ok.injEq] at h'
        subst h'
        intro hc
        cases hc
    | none => rw [hi] at h1; exact absurd rfl h1
    | bool b => rw [hi] at h; cases h
    | int n => rw [hi] at h; cases h
    | float q => rw [hi] at h; cases h
    | bytes bs => rw [hi] at h; cases h
    | datetime d => rw [hi] at h; cases h
    | list xs => rw [hi] at h; cases h
    | dict es' => rw [hi] at h; cases h
    | obj c fs => rw [hi] at h; cases h

theorem json_loads_val_none (j : Json) (h : json_loads_val j = .ok PyVal.none) :
    j = Json.null := by
  cases j with
  | null => rfl
  | bool b => cases h
  | num n => cases h
  | fnum q => cases h
  | str t => cases h
  | arr xs =>
    simp only [json_loads_val] at h
    cases hl : json_loads_list xs with
    | error e => rw [hl] at h; cases h
    | ok ys => rw [hl] at h; cases h
  | obj es =>
    simp only [json_loads_val] at h
    cases hl : json_loads_entries es with
    | error e => rw [hl] at h; cases h
    | ok ps =>
      rw [hl] at h
      simp only [err_bind_ok] at h
      exact absurd rfl (object_hook_ne_none _ _ h)

/-! ## Plain documents decode to themselves and pass through `restore_instance` -/

theorem plainEntries_forall (es : List (String × Json)) (h : plainEntries es = true) :
    ∀ kv ∈ es, plainDoc kv.2 = true := by
  induction es with
  | nil => intro kv hkv; cases hkv
  | cons kv' rest ih =>
    obtain ⟨k, v⟩ := kv'
    simp only [plainEntries, Bool.and_eq_true] at h
    intro kv hkv
    rcases List.mem_cons.mp hkv with rfl | hmem
    · exact h.1
    · exact ih h.2 kv hmem

mutual

theorem plainLoadsRestore (s : PatchState) (j : Json) (h : plainDoc j = true) :
    ∃ w, json_loads_val j = .ok w ∧ restore_instance s w = .ok w := by
  cases j with
  | null => exact ⟨.none, rfl, rfl⟩
  | bool b => exact ⟨.bool b, rfl, rfl⟩
  | num n => exact ⟨.int n, rfl, rfl⟩
  | fnum q => exact ⟨.float q, rfl, rfl⟩
  | str t => exact ⟨.str t, rfl, rfl⟩
  | arr xs =>
    obtain ⟨ws, hl, hr⟩ := plainArrLR s xs (by simpa [plainDoc] using h)
    exact ⟨.list ws, by simp [json_loads_val, hl], by simp [restore_instance, hr]⟩
  | obj es =>
    simp only [plainDoc, Bool.and_eq_true] at h
    obtain ⟨⟨hnd, hres⟩, hpl⟩ := h
    obtain ⟨ws, hl, hr, hk, _⟩ := plainEntriesLR s es (plainEntries_forall es hpl)
    have hndw : nodupKeys (keysOf ws) = true := by rw [hk]; exact hnd
    have hdd : dedupEntries ws = ws := dedupEntries_eq_self ws hndw
    have hiso : assocGet ws "_isoformat" = Option.none := by
      apply assocGet_of_not_mem
      rw [hk]
      intro hmem
      have := List.all_eq_true.mp hres _ hmem
      simp [reservedKey] at this
    have hb64 : assocGet ws "_base64" = Option.none := by
      apply assocGet_of_not_mem
      rw [hk]
      intro hmem
      have := List.all_eq_true.mp hres _ hmem
      simp [reservedKey] at this
    have htag : assocGet ws "_" = Option.none := by
      apply assocGet_of_not_mem
      rw [hk]
      intro hmem
      have := List.all_eq_true.mp hres _ hmem
      simp [reservedKey] at this
    refine ⟨.dict ws, ?_, ?_⟩
    · simp [json_loads_val, hl, hdd, object_hook_json_helper, hiso, hb64, pyIsNone]
    · simp [restore_instance, hr, htag]

theorem plainArrLR (s : PatchState) (xs : List Json) (h : plainArr xs = true) :
    ∃ ws, json_loads_list xs = .ok ws ∧ restoreList s ws = .ok ws := by
  cases xs with
  | nil => exact ⟨[], rfl, rfl⟩
  | cons x rest =>
    simp only [plainArr, Bool.and_eq_true] at h
    obtain ⟨w, hlw, hrw⟩ := plainLoadsRestore s x h.1
    obtain ⟨ws, hl, hr⟩ := plainArrLR s rest h.2
    exact ⟨w :: ws, by simp [json_loads_list, hlw, hl], by simp [restoreList, hrw, hr]⟩

theorem plainEntriesLR (s : PatchState) (es : List (String × Json))
    (h : ∀ kv ∈ es, plainDoc kv.2 = true) :
    ∃ ws, json_loads_entries es = .ok ws ∧ restoreEntries s ws = .ok ws ∧
      keysOf ws = keysOf es ∧
      (∀ k v, assocGet es k = some v → ∃ w, assocGet ws k = some w ∧ json_loads_val v = .ok w) := by
  cases es with
  | nil => exact ⟨[], rfl, rfl, rfl, fun k v hv => by cases hv⟩
  | cons kv rest =>
    obtain ⟨k', v'⟩ := kv
    obtain ⟨w, hlw, hrw⟩ := plainLoadsRestore s v' (h (k', v') (by simp))
    obtain ⟨ws, hl, hr, hk, ha⟩ := plainEntriesLR s rest (fun kv hkv => h kv (by simp [hkv]))
    refine ⟨(k', w) :: ws, ?_, ?_, ?_, ?_⟩
    · simp [json_loads_entries, hlw, hl]
    · simp [restoreEntries, hrw, hr]
    · simp [keysOf] at hk ⊢
      exact hk
    · intro k v hv
      by_cases hkk : k' = k
      · subst hkk
        simp only [assocGet, if_pos rfl] at hv ⊢
        cases hv
        exact ⟨w, rfl, hlw⟩
      · simp only [assocGet, if_neg hkk] at hv ⊢
        exact ha k v hv

end

/-! ## Round trip of good values through dictify, dumps, loads, restore -/

theorem hook_plain_dict (ws : List (String × PyVal))
    (hiso : assocGet ws "_isoformat" = Option.none)
    (hb : assocGet ws "_base64" = Option.none) :
    object_hook_json_helper ws = .ok (.dict ws) := by
  simp [object_hook_json_helper, hiso, hb, pyIsNone]

theorem assocGet_reserved_free {α : Type} (ws : List (String × α)) (ks : List String)
    (hk : keysOf ws = ks) (hres : ks.all (fun k => !(reservedKey k)) = true)
    (k0 : String) (hk0 : reservedKey k0 = true) : assocGet ws k0 = Option.none := by
  apply assocGet_of_not_mem
  rw [hk]
  intro hmem
  have := List.all_eq_true.mp hres _ hmem
  rw [hk0] at this
  cases this

mutual

theorem roundVal (s : PatchState) (v : PyVal) (hp : s.patch_called = true)
    (h : goodVal s v = true) :
    ∃ v1 j w, dictifyVal s v = .ok v1 ∧ json_dumps_val v1 = .ok j ∧
      json_loads_val j = .ok w ∧ restore_instance s w = .ok v := by
  cases v with
  | none => exact ⟨.none, .null, .none, rfl, rfl, rfl, rfl⟩
  | bool b => exact ⟨.bool b, .bool b, .bool b, rfl, rfl, rfl, rfl⟩
  | int n => exact ⟨.int n, .num n, .int n, rfl, rfl, rfl, rfl⟩
  | float q => exact ⟨.float q, .fnum q, .float q, rfl, rfl, rfl, rfl⟩
  | str t => exact ⟨.str t, .str t, .str t, rfl, rfl, rfl, rfl⟩
  | datetime d =>
    refine ⟨.datetime d, .obj [("_isoformat", .str (datetime_isoformat d))], .datetime d,
      rfl, rfl, ?_, rfl⟩
    simp [json_loads_val, json_loads_entries, dedupEntries, updateAssoc,
      object_hook_json_helper, assocGet, pyIsNone, datetime_round d]
  | bytes bs =>
    refine ⟨.bytes bs,
      .obj [("_base64", .bool true), ("encoded", .str (base64_encodebytes bs))], .bytes bs,
      rfl, rfl, ?_, rfl⟩
    simp [json_loads_val, json_loads_entries, dedupEntries, updateAssoc,
      object_hook_json_helper, assocGet, pyIsNone, base64_round bs]
  | list xs =>
    obtain ⟨ys, js, ws, h1, h2, h3, h4⟩ := roundList s xs hp (by simpa [goodVal] using h)
    exact ⟨.list ys, .arr js, .list ws,
      by simp [dictifyVal, h1], by simp [json_dumps_val, h2],
      by simp [json_loads_val, h3], by simp [restore_instance, h4]⟩
  | dict es =>
    simp only [goodVal, Bool.and_eq_true] at h
    obtain ⟨⟨hnd, hres⟩, hge⟩ := h
    obtain ⟨es1, js, ws, h1, h2, h3, h4⟩ := roundEntries s es hp hge
    have hkes1 : keysOf es1 = keysOf es := keysOf_dictifyEntries s es es1 h1
    have hkjs : keysOf js = keysOf es := by rw [keysOf_json_dumps_entries es1 js h2, hkes1]
    have hkws : keysOf ws = keysOf es := by rw [keysOf_json_loads_entries js ws h3, hkjs]
    have hndws : nodupKeys (keysOf ws) = true := by rw [hkws]; exact hnd
    have hiso : assocGet ws "_isoformat" = Option.none :=
      assocGet_reserved_free ws (keysOf es) hkws hres _ (by rfl)
    have hb64 : assocGet ws "_base64" = Option.none :=
      assocGet_reserved_free ws (keysOf es) hkws hres _ (by rfl)
    have htag : assocGet es "_" = Option.none :=
      assocGet_reserved_free es (keysOf es) rfl hres _ (by rfl)
    refine ⟨.dict es1, .obj js, .dict ws, by simp [dictifyVal, h1],
      by simp [json_dumps_val, h2], ?_, ?_⟩
    · simp [json_loads_val, h3, dedupEntries_eq_self ws hndws, hook_plain_dict ws hiso hb64]
    · simp [restore_instance, h4, htag]
  | obj c fs =>
    simp only [goodVal, Bool.and_eq_true] at h
    obtain ⟨⟨hgc, hkeys⟩, hge⟩ := h
    simp only [goodClass, Bool.and_eq_true, decide_eq_true_eq] at hgc
    obtain ⟨⟨⟨⟨⟨hcache, hdepth⟩, htag⟩, htl⟩, hndf⟩, hresf⟩ := hgc
    rw [decide_eq_true_eq] at hkeys
    obtain ⟨es1, js, ws, h1, h2, h3, h4⟩ := roundEntries s fs hp hge
    have hkes1 : keysOf es1 = keysOf fs := keysOf_dictifyEntries s fs es1 h1
    have hkjs : keysOf js = keysOf fs := by rw [keysOf_json_dumps_entries es1 js h2, hkes1]
    have hkws : keysOf ws = keysOf fs := by rw [keysOf_json_loads_entries js ws h3, hkjs]
    have hresk : (keysOf fs).all (fun k => !(reservedKey k)) = true := by rw [hkeys]; exact hresf
    have hndk : nodupKeys (keysOf fs) = true := by rw [hkeys]; exact hndf
    -- stage 1: the wrapped to_dict rewrites the tag to the full name
    have hdict : dictifyVal s (.obj c fs) =
        .ok (.dict (("_", .str (full_class_name c)) :: es1)) := by
      simp [dictifyVal, h1, hdepth, wrapIter, wrapOnce, assocGet, htag, updateAssoc]
    -- stage 2: dumps renders the tagged mapping structurally
    have hdump : json_dumps_val (.dict (("_", .str (full_class_name c)) :: es1)) =
        .ok (.obj (("_", Json.str (full_class_name c)) :: js)) := by
      simp [json_dumps_val, json_dumps_entries, h2]
    -- stage 3: loads parses it back and the hook leaves it alone
    have hndtag : nodupKeys (keysOf (("_", PyVal.str (full_class_name c)) :: ws)) = true := by
      rw [nodupKeys_iff]
      have hck : keysOf (("_", PyVal.str (full_class_name c)) :: ws) = "_" :: keysOf ws := rfl
      rw [hck, List.nodup_cons]
      constructor
      · rw [hkws, hkeys]
        intro hmem
        have := List.all_eq_true.mp hresf _ hmem
        simp [reservedKey] at this
      · exact (nodupKeys_iff _).mp (by rw [hkws]; exact hndk)
    have hisoc : assocGet (("_", PyVal.str (full_class_name c)) :: ws) "_isoformat"
        = Option.none := by
      simp only [assocGet, if_neg (by decide : ¬ ("_" : String) = "_isoformat")]
      exact assocGet_reserved_free ws (keysOf fs) hkws hresk _ (by rfl)
    have hb64c : assocGet (("_", PyVal.str (full_class_name c)) :: ws) "_base64"
        = Option.none := by
      simp only [assocGet, if_neg (by decide : ¬ ("_" : String) = "_base64")]
      exact assocGet_reserved_free ws (keysOf fs) hkws hresk _ (by rfl)
    have hload : json_loads_val (.obj (("_", Json.str (full_class_name c)) :: js)) =
        .ok (.dict (("_", PyVal.str (full_class_name c)) :: ws)) := by
      simp [json_loads_val, json_loads_entries, h3,
        dedupEntries_eq_self _ hndtag,
        hook_plain_dict _ hisoc hb64c]
    -- stage 4: restore rebuilds the object from the registered class
    have hrest : restore_instance s (.dict (("_", PyVal.str (full_class_name c)) :: ws)) =
        .ok (.obj c fs) := by
      have hre : restoreEntries s (("_", PyVal.str (full_class_name c)) :: ws) =
          .ok (("_", PyVal.str (full_class_name c)) :: fs) := by
        simp [restoreEntries, restore_instance, h4]
      have hcls : get_telethon_class s (full_class_name c) = .ok c := by
        simp [get_telethon_class, _check_patch_was_applied, hp, hcache]
      have hcons : construct_instance c fs = .ok (.obj c fs) := by
        unfold construct_instance
        rw [if_pos (by rw [hkeys]; exact kwargs_match_refl c.fieldNames)]
        have := canonicalFields PyVal.none fs ((nodupKeys_iff _).mp hndk)
        rw [← hkeys, this]
      simp [restore_instance, hre, assocGet, removeKey, hcls, hcons]
    exact ⟨_, _, _, hdict, hdump, hload, hrest⟩

theorem roundList (s : PatchState) (xs : List PyVal) (hp : s.patch_called = true)
    (h : goodList s xs = true) :
    ∃ ys js ws, dictifyList s xs = .ok ys ∧ json_dumps_list ys = .ok js ∧
      json_loads_list js = .ok ws ∧ restoreList s ws = .ok xs := by
  cases xs with
  | nil => exact ⟨[], [], [], rfl, rfl, rfl, rfl⟩
  | cons x rest =>
    simp only [goodList, Bool.and_eq_true] at h
    obtain ⟨v1, j, w, hv1, hj, hw, hv⟩ := roundVal s x hp h.1
    obtain ⟨ys, js, ws, h1, h2, h3, h4⟩ := roundList s rest hp h.2
    exact ⟨v1 :: ys, j :: js, w :: ws,
      by simp [dictifyList, hv1, h1], by simp [json_dumps_list, hj, h2],
      by simp [json_loads_list, hw, h3], by simp [restoreList, hv, h4]⟩

theorem roundEntries (s : PatchState) (es : List (String × PyVal)) (hp : s.patch_called = true)
    (h : goodEntries s es = true) :
    ∃ es1 js ws, dictifyEntries s es = .ok es1 ∧ json_dumps_entries es1 = .ok js ∧
      json_loads_entries js = .ok ws ∧ restoreEntries s ws = .ok es := by
  cases es with
  | nil => exact ⟨[], [], [], rfl, rfl, rfl, rfl⟩
  | cons kv rest =>
    obtain ⟨k, v⟩ := kv
    simp only [goodEntries, Bool.and_eq_true] at h
    obtain ⟨v1, j, w, hv1, hj, hw, hv⟩ := roundVal s v hp h.1
    obtain ⟨es1, js, ws, h1, h2, h3, h4⟩ := roundEntries s rest hp h.2
    exact ⟨(k, v1) :: es1, (k, j) :: js, (k, w) :: ws,
      by simp [dictifyEntries, hv1, h1], by simp [json_dumps_entries, hj, h2],
      by simp [json_loads_entries, hw, h3], by simp [restoreEntries, hv, h4]⟩

end

/-! ## Further bridge lemmas -/

theorem assocGet_some_of_mem {α : Type} (k : String) :
    ∀ es : List (String × α), k ∈ keysOf es → ∃ v, assocGet es k = some v := by
  intro es
  induction es with
  | nil => intro h; cases h
  | cons kv rest ih =>
    intro h
    obtain ⟨k', v'⟩ := kv
    by_cases hk : k' = k
    · exact ⟨v', by simp [assocGet, hk]⟩
    · have : k ∈ keysOf rest := by
        simp only [keysOf, List.map_cons, List.mem_cons] at h
        rcases h with h | h
        · exact absurd h.symm hk
        · simpa [keysOf] using h
      obtain ⟨v, hv⟩ := ih this
      exact ⟨v, by simp [assocGet, hk, hv]⟩

theorem assocGet_none_not_mem {α : Type} (k : String) (es : List (String × α))
    (h : assocGet es k = Option.none) : ¬ k ∈ keysOf es := by
  intro hmem
  obtain ⟨v, hv⟩ := assocGet_some_of_mem k es hmem
  rw [h] at hv
  cases hv

theorem dictifyVal_obj (s : PatchState) (c : PClass) (fs : List (String × PyVal)) :
    dictifyVal s (.obj c fs) =
      (do
        let r ← callObjToDict s c fs
        pure (PyVal.dict r)) := by
  unfold callObjToDict
  cases h1 : dictifyEntries s fs with
  | error e => simp [dictifyVal, h1]
  | ok es =>
    cases h2 : wrapIter c (depthOf s c) (("_", .str c.nativeTag) :: es) with
    | error e => simp [dictifyVal, h1, h2]
    | ok r => simp [dictifyVal, h1, h2]

/-! ## Claim theorems -/

/-- **C2** (counterexample): the round-trip verifier can propagate an
exception.  For a wrapped class whose native tag differs from its short
name, the encode phase raises inside the `try` block, and the `except`
handler's own call to the object's human-readable rendering raises the
same `ValueError` again, which escapes to the caller — the verifier does
not return a boolean. -/
theorem c2_counterexample :
    check_telethon_obj_serialization mismatchState mismatchClass []
      = .error (.valueError "class name mismatch: dump=X, class=D") := rfl

/-- **C2** (amended): the round-trip verifier returns a boolean (never
propagates an exception) provided rendering the original object's
human-readable form (`obj.stringify()`) itself succeeds; every exception
raised during the encode or decode phase is then caught and converted to
`False`. -/
theorem c2_verifier_returns_bool (s : PatchState) (c : PClass) (fs : List (String × PyVal))
    (h : stringify s c fs = .ok ()) :
    ∃ b, check_telethon_obj_serialization s c fs = .ok b := by
  unfold check_telethon_obj_serialization
  cases hcb : check_body s c fs with
  | ok b => exact ⟨b, rfl⟩
  | error e =>
    rw [h]
    exact ⟨false, rfl⟩

/-- **C2** (witness): a concrete run of the amended statement. -/
theorem c2_verifier_returns_bool_witness :
    stringify sampleState sampleClass [("f", .int 5), ("g", .none)] = .ok ()
    ∧ ∃ b, check_telethon_obj_serialization sampleState sampleClass
        [("f", .int 5), ("g", .none)] = .ok b :=
  ⟨rfl, c2_verifier_returns_bool sampleState sampleClass [("f", .int 5), ("g", .none)] rfl⟩

/-- **C3** (counterexample): a native-tag mismatch does not abort the
wrapping of the type during initialization.  Patching `mismatchClass`
(native tag `"X"`, short name `"D"`) still records it as patched and
registers it in the cache; the consistency error is raised only later,
when the wrapped `to_dict` is invoked. -/
theorem c3_counterexample :
    (_patch_to_dict_method initial_state mismatchClass).patched_class_names = ["m.D"]
    ∧ assocGet (_patch_to_dict_method initial_state mismatchClass).class_cache "m.D"
        = some mismatchClass
    ∧ callObjToDict (_patch_to_dict_method initial_state mismatchClass) mismatchClass []
        = .error (.valueError "class name mismatch: dump=X, class=D") :=
  ⟨rfl, rfl, rfl⟩

/-- **C3** (amended): the native-tag consistency check is enforced when
the wrapped describe-as-mapping behaviour is invoked, not during
wrapping: wrapping a `TLObject` subclass always installs the wrapper and
registers the type (only non-`TLObject` entries are skipped, with a
logged warning, locally and non-fatally), and if the native tag differs
from the type's short name then calling the wrapped `to_dict` raises the
mismatch `ValueError`. -/
theorem c3_mismatch_check_deferred (s : PatchState) (c : PClass)
    (htl : c.isTLObject = true)
    (hmem : ¬ full_class_name c ∈ s.patched_class_names)
    (hd : assocGet s.wrap_depth (full_class_name c) = Option.none)
    (hne : ¬ c.nativeTag = c.qualname) :
    (_patch_to_dict_method s c).patched_class_names
        = full_class_name c :: s.patched_class_names
    ∧ assocGet (_patch_to_dict_method s c).class_cache (full_class_name c) = some c
    ∧ ∀ f fs, dictifyEntries (_patch_to_dict_method s c) f = .ok fs →
        callObjToDict (_patch_to_dict_method s c) c f
          = .error (.valueError
              ("class name mismatch: dump=" ++ c.nativeTag ++ ", class=" ++ c.qualname)) := by
  refine ⟨?_, ?_, ?_⟩
  · simp [_patch_to_dict_method, htl, hmem]
  · simp [_patch_to_dict_method, htl, hmem, assocGet]
  · intro f fs hdf
    have hdep : depthOf (_patch_to_dict_method s c) c = 1 := by
      simp [_patch_to_dict_method, htl, hmem, depthOf, assocGet, hd]
    simp [callObjToDict, hdf, hdep, wrapIter, wrapOnce, assocGet, hne]

/-- **C3** (witness): a concrete run of the amended statement. -/
theorem c3_mismatch_check_deferred_witness :
    mismatchClass.isTLObject = true
    ∧ ¬ mismatchClass.nativeTag = mismatchClass.qualname
    ∧ callObjToDict (_patch_to_dict_method initial_state mismatchClass) mismatchClass []
        = .error (.valueError
            ("class name mismatch: dump=" ++ mismatchClass.nativeTag ++ ", class="
              ++ mismatchClass.qualname)) :=
  ⟨rfl, by decide,
    (c3_mismatch_check_deferred initial_state mismatchClass rfl (by decide) rfl
      (by decide)).2.2 [] [] rfl⟩

/-- **C5** (counterexample): the presence of the key `"_isoformat"`
alone does not trigger the timestamp replacement — the code tests
`obj.get('_isoformat') is not None`, so a mapping carrying
`"_isoformat": null` is returned unchanged as a plain mapping instead of
being replaced by a parsed timestamp. -/
theorem c5_counterexample :
    object_hook_json_helper [("_isoformat", PyVal.none)]
      = .ok (.dict [("_isoformat", PyVal.none)])
    ∧ (match object_hook_json_helper [("_isoformat", PyVal.none)] with
       | .ok (.datetime _) => False
       | _ => True) :=
  ⟨rfl, trivial⟩

/-- **C5** (amended): the object hook inspects every decoded plain JSON
object as follows — if it has the key `"_isoformat"` with a **non-null**
value, that value is parsed as a timestamp (a string value yields the
parse result); otherwise, if it has `"_base64"` with a non-null value,
it is replaced by the byte decoding of its `"encoded"` string; otherwise
(both keys absent or null) it is returned unchanged as a plain mapping.
A null value behaves exactly like an absent key. -/
theorem c5_hook_branches (es : List (String × PyVal)) :
    (∀ t, assocGet es "_isoformat" = some (.str t) →
      object_hook_json_helper es = (fun d => PyVal.datetime d) <$> datetime_fromisoformat t)
    ∧ ((assocGet es "_isoformat").getD PyVal.none = PyVal.none →
      ∀ b, assocGet es "_base64" = some b → ¬ b = PyVal.none →
      ∀ e, assocGet es "encoded" = some (.str e) →
      object_hook_json_helper es = (fun bs => PyVal.bytes bs) <$> base64_decodebytes e)
    ∧ ((assocGet es "_isoformat").getD PyVal.none = PyVal.none →
      (assocGet es "_base64").getD PyVal.none = PyVal.none →
      object_hook_json_helper es = .ok (.dict es)) := by
  refine ⟨?_, ?_, ?_⟩
  · intro t hiso
    simp [object_hook_json_helper, hiso, pyIsNone]
  · intro hiso0 b hb hbn e he
    have hpb : pyIsNone ((assocGet es "_base64").getD PyVal.none) = false := by
      rw [hb]
      cases b with
      | none => exact absurd rfl hbn
      | bool x => rfl
      | int x => rfl
      | float x => rfl
      | str x => rfl
      | bytes x => rfl
      | datetime x => rfl
      | list x => rfl
      | dict x => rfl
      | obj x y => rfl
    simp only [pyIsNone] at hpb
    simp [object_hook_json_helper, hiso0, hpb, he, pyIsNone]
  · intro hiso0 hb0
    simp [object_hook_json_helper, hiso0, hb0, pyIsNone]

/-- **C5** (witness): a concrete run of the amended statement. -/
theorem c5_hook_branches_witness :
    assocGet [("_isoformat", PyVal.str (datetime_isoformat 2))] "_isoformat"
      = some (.str (datetime_isoformat 2))
    ∧ object_hook_json_helper [("_isoformat", PyVal.str (datetime_isoformat 2))]
      = (fun d => PyVal.datetime d) <$> datetime_fromisoformat (datetime_isoformat 2) :=
  ⟨rfl, (c5_hook_branches [("_isoformat", PyVal.str (datetime_isoformat 2))]).1
    (datetime_isoformat 2) rfl⟩

/-- **C7**: wrapping a type's describe-as-mapping behaviour is
idempotent per type — wrapping an already-wrapped type a second time is
a no-op on the whole registry state, and after the second wrap the
reserved key of the type's description still holds the single full Type
Identifier. -/
theorem c7_idempotent_wrap (s : PatchState) (c : PClass)
    (htl : c.isTLObject = true)
    (hmem : ¬ full_class_name c ∈ s.patched_class_names)
    (hd : assocGet s.wrap_depth (full_class_name c) = Option.none)
    (htag : c.nativeTag = c.qualname) :
    _patch_to_dict_method (_patch_to_dict_method s c) c = _patch_to_dict_method s c
    ∧ ∀ f fs, dictifyEntries (_patch_to_dict_method (_patch_to_dict_method s c) c) f = .ok fs →
        callObjToDict (_patch_to_dict_method (_patch_to_dict_method s c) c) c f
          = .ok (("_", .str (full_class_name c)) :: fs) := by
  have hsecond : _patch_to_dict_method (_patch_to_dict_method s c) c
      = _patch_to_dict_method s c := by
    have h1 : _patch_to_dict_method s c =
        { s with
          patched_class_names := full_class_name c :: s.patched_class_names,
          wrap_depth := (full_class_name c,
            ((assocGet s.wrap_depth (full_class_name c)).getD 0) + 1) :: s.wrap_depth,
          class_cache := (full_class_name c, c) :: s.class_cache } := by
      simp [_patch_to_dict_method, htl, hmem]
    rw [h1]
    simp [_patch_to_dict_method, htl]
  refine ⟨hsecond, ?_⟩
  intro f fs hdf
  rw [hsecond] at hdf ⊢
  have hdep : depthOf (_patch_to_dict_method s c) c = 1 := by
    simp [_patch_to_dict_method, htl, hmem, depthOf, assocGet, hd]
  simp [callObjToDict, hdf, hdep, wrapIter, wrapOnce, assocGet, htag, updateAssoc]

/-- **C7** (witness): a concrete run. -/
theorem c7_idempotent_wrap_witness :
    _patch_to_dict_method (_patch_to_dict_method emptyPatchedState sampleClass) sampleClass
      = _patch_to_dict_method emptyPatchedState sampleClass
    ∧ callObjToDict
        (_patch_to_dict_method (_patch_to_dict_method emptyPatchedState sampleClass) sampleClass)
        sampleClass [("f", .int 1), ("g", .none)]
      = .ok [("_", .str (full_class_name sampleClass)), ("f", .int 1), ("g", .none)] :=
  ⟨(c7_idempotent_wrap emptyPatchedState sampleClass rfl (by decide) rfl rfl).1,
    (c7_idempotent_wrap emptyPatchedState sampleClass rfl (by decide) rfl rfl).2
      [("f", .int 1), ("g", .none)] [("f", .int 1), ("g", .none)] rfl⟩

/-- **C8**: every registry-dependent operation other than initialization
— the registry lookup, the duplicate-short-name diagnostic, encode, and
decode — fails with the state `RuntimeError` when invoked before
initialization. -/
theorem c8_preinit_state_error (s : PatchState) (hp : s.patch_called = false)
    (n : String) (c : PClass) (fs : List (String × PyVal)) (ea : Bool) (ind : Option Nat)
    (d : Dumped) :
    get_telethon_class s n = .error (.runtimeError no_patch_message)
    ∧ report_same_basename_classes s = .error (.runtimeError no_patch_message)
    ∧ tl_obj_to_string s c fs ea ind = .error (.runtimeError no_patch_message)
    ∧ tl_obj_from_string s d = .error (.runtimeError no_patch_message) := by
  refine ⟨?_, ?_, ?_, ?_⟩ <;>
    simp [get_telethon_class, report_same_basename_classes, tl_obj_to_string,
      tl_obj_from_string, _check_patch_was_applied, hp]

/-- **C8** (witness): a concrete run on the uninitialized state. -/
theorem c8_preinit_state_error_witness :
    initial_state.patch_called = false
    ∧ get_telethon_class initial_state "m.C" = .error (.runtimeError no_patch_message) :=
  ⟨rfl, (c8_preinit_state_error initial_state rfl "m.C" sampleClass [] true Option.none
    ⟨Json.null, true, Option.none⟩).1⟩

/-- **C10**: `tl_obj_to_string`'s defaults are `ensure_ascii = True` and
`indent = None`: the two-argument call coincides with the explicit call
`tl_obj_to_string(obj, ensure_ascii=True, indent=None)`, and every
successful dump produced with the defaults records ASCII-only escaping
and compact (no-indent) formatting. -/
theorem c10_encode_defaults (s : PatchState) (c : PClass) (fs : List (String × PyVal)) :
    tl_obj_to_string s c fs = tl_obj_to_string s c fs true Option.none
    ∧ ∀ d, tl_obj_to_string s c fs = .ok d →
        d.ensureAscii = true ∧ d.indent = Option.none := by
  refine ⟨rfl, ?_⟩
  intro d h
  unfold tl_obj_to_string at h
  cases hc : _check_patch_was_applied s with
  | error e => rw [hc] at h; simp at h
  | ok u =>
    rw [hc] at h
    simp only [err_bind_ok] at h
    cases hco : callObjToDict s c fs with
    | error e => rw [hco] at h; simp at h
    | ok r =>
      rw [hco] at h
      simp only [err_bind_ok] at h
      cases hdp : json_dumps_val (.dict r) with
      | error e => rw [hdp] at h; simp at h
      | ok t =>
        rw [hdp] at h
        simp only [err_bind_ok, err_pure, Except.ok.injEq] at h
        rw [← h]
        exact ⟨rfl, rfl⟩

/-- **C10** (witness): a concrete successful dump with the defaults. -/
theorem c10_encode_defaults_witness :
    tl_obj_to_string sampleState sampleClass []
      = .ok ⟨Json.obj [("_", Json.str "m.C")], true, Option.none⟩
    ∧ (⟨Json.obj [("_", Json.str "m.C")], true, Option.none⟩ : Dumped).ensureAscii = true
    ∧ (⟨Json.obj [("_", Json.str "m.C")], true, Option.none⟩ : Dumped).indent = Option.none :=
  ⟨rfl, (c10_encode_defaults sampleState sampleClass []).2
    ⟨Json.obj [("_", Json.str "m.C")], true, Option.none⟩ rfl⟩

/-- **C1** (counterexample): the round trip is not an identity for every
object built from the supported value kinds.  An object whose field
holds an untagged mapping using the reserved key `"_isoformat"` decodes
to an object with a timestamp in place of the mapping, so the two
tagged-mapping descriptions differ. -/
theorem c1_counterexample :
    (do
      let d ← tl_obj_to_string sampleState sampleClass
        [("f", .dict [("_isoformat", .str (datetime_isoformat 5))]), ("g", .none)]
      tl_obj_from_string sampleState d)
      = .ok (.obj sampleClass [("f", .datetime 5), ("g", .none)])
    ∧ callObjToDict sampleState sampleClass
        [("f", .dict [("_isoformat", .str (datetime_isoformat 5))]), ("g", .none)]
      = .ok [("_", .str "m.C"),
             ("f", .dict [("_isoformat", .str (datetime_isoformat 5))]), ("g", .none)]
    ∧ callObjToDict sampleState sampleClass [("f", .datetime 5), ("g", .none)]
      = .ok [("_", .str "m.C"), ("f", .datetime 5), ("g", .none)]
    ∧ pyEq
        (.dict [("_", .str "m.C"),
                ("f", .dict [("_isoformat", .str (datetime_isoformat 5))]), ("g", .none)])
        (.dict [("_", .str "m.C"), ("f", .datetime 5), ("g", .none)]) = false :=
  ⟨rfl, rfl, rfl, rfl⟩

/-- **C1** (amended): for every constructible protocol-message object of
a coherently registered class whose value graph avoids the reserved keys
(`"_"`, `"_isoformat"`, `"_base64"`) in untagged mappings and in field
names, decoding the text produced by encoding the object yields the
original object back — in particular a value of the same runtime type
with an identical tagged-mapping description. -/
theorem c1_round_trip (s : PatchState) (c : PClass) (fs : List (String × PyVal))
    (hp : s.patch_called = true) (hg : goodVal s (.obj c fs) = true) :
    (do
      let d ← tl_obj_to_string s c fs
      tl_obj_from_string s d) = .ok (.obj c fs) := by
  obtain ⟨v1, j, w, h1, h2, h3, h4⟩ := roundVal s (.obj c fs) hp hg
  have hobj := dictifyVal_obj s c fs
  rw [h1] at hobj
  cases hco : callObjToDict s c fs with
  | error e => rw [hco] at hobj; simp at hobj
  | ok r =>
    rw [hco] at hobj
    simp only [err_bind_ok, err_pure, Except.ok.injEq] at hobj
    subst hobj
    have hg' := hg
    simp only [goodVal, Bool.and_eq_true] at hg'
    obtain ⟨⟨hgc, _⟩, _⟩ := hg'
    simp only [goodClass, Bool.and_eq_true, decide_eq_true_eq] at hgc
    obtain ⟨⟨⟨⟨⟨_, _⟩, _⟩, htl⟩, _⟩, _⟩ := hgc
    simp [tl_obj_to_string, tl_obj_from_string, _check_patch_was_applied, hp, hco,
      h2, h3, h4, htl]

/-- **C1** (witness): a concrete round trip through the pipeline. -/
theorem c1_round_trip_witness :
    sampleState.patch_called = true
    ∧ goodVal sampleState (.obj sampleClass [("f", .int 5), ("g", .bytes [2, 0])]) = true
    ∧ (do
        let d ← tl_obj_to_string sampleState sampleClass [("f", .int 5), ("g", .bytes [2, 0])]
        tl_obj_from_string sampleState d)
      = .ok (.obj sampleClass [("f", .int 5), ("g", .bytes [2, 0])]) :=
  ⟨rfl, rfl,
    c1_round_trip sampleState sampleClass [("f", .int 5), ("g", .bytes [2, 0])] rfl rfl⟩

/-- **C4** (counterexample): the verifier's success does not force exact
runtime-type equality.  For an unpatched class `superClassA` whose
native tag names the registered subclass `subClassB`, the decoded value
is a `subClassB` instance — a proper subclass of the original's class —
yet the verifier reports success, because its check is `isinstance`. -/
theorem c4_counterexample :
    check_telethon_obj_serialization subclassState superClassA [("x", .int 1)] = .ok true
    ∧ (do
        let d ← tl_obj_to_string subclassState superClassA [("x", .int 1)] false Option.none
        tl_obj_from_string subclassState d) = .ok (.obj subClassB [("x", .int 1)])
    ∧ ¬ subClassB = superClassA :=
  ⟨rfl, rfl, by decide⟩

/-- **C4** (amended): the round-trip verifier reports success only if
the decoded value is an *instance* of the original object's runtime
class (the same class or a subclass — the code checks `isinstance`, not
exact type equality) and the decoded value's tagged-mapping description
equals the original's field for field. -/
theorem c4_success_instance_and_equal_dicts (s : PatchState) (c : PClass)
    (fs : List (String × PyVal))
    (h : check_telethon_obj_serialization s c fs = .ok true) :
    ∃ dmp rc rfs d1 d2,
      tl_obj_to_string s c fs false Option.none = .ok dmp
      ∧ tl_obj_from_string s dmp = .ok (.obj rc rfs)
      ∧ isinstanceOf rc c = true
      ∧ callObjToDict s c fs = .ok d1
      ∧ callObjToDict s rc rfs = .ok d2
      ∧ pyEq (.dict d1) (.dict d2) = true := by
  have hbody : check_body s c fs = .ok true := by
    unfold check_telethon_obj_serialization at h
    cases hcb : check_body s c fs with
    | ok b =>
      rw [hcb] at h
      simp at h
      rw [h]
    | error e =>
      rw [hcb] at h
      cases hst : stringify s c fs with
      | ok u => rw [hst] at h; simp at h
      | error e2 => rw [hst] at h; simp at h
  unfold check_body at hbody
  cases h0 : stringify s c fs with
  | error e => rw [h0] at hbody; simp at hbody
  | ok u =>
    rw [h0] at hbody
    simp only [err_bind_ok] at hbody
    cases h1 : tl_obj_to_string s c fs false Option.none with
    | error e => rw [h1] at hbody; simp at hbody
    | ok dmp =>
      rw [h1] at hbody
      simp only [err_bind_ok] at hbody
      cases h2 : tl_obj_from_string s dmp with
      | error e => rw [h2] at hbody; simp at hbody
      | ok restored =>
        rw [h2] at hbody
        simp only [err_bind_ok] at hbody
        cases restored with
        | obj rc rfs =>
          replace hbody : (if ¬ isinstanceOf rc c = true then (pure false : Except Err Bool)
              else do
                let d1 ← callObjToDict s c fs
                let d2 ← callObjToDict s rc rfs
                if pyEq (PyVal.dict d1) (PyVal.dict d2) = true then pure true
                else do
                  let _ ← stringify s rc rfs
                  pure false) = Except.ok true := hbody
          by_cases hin : isinstanceOf rc c = true
          · rw [if_neg (not_not_intro hin)] at hbody
            cases h3 : callObjToDict s c fs with
            | error e => rw [h3] at hbody; simp at hbody
            | ok d1 =>
              rw [h3] at hbody
              simp only [err_bind_ok] at hbody
              cases h4 : callObjToDict s rc rfs with
              | error e => rw [h4] at hbody; simp at hbody
              | ok d2 =>
                rw [h4] at hbody
                simp only [err_bind_ok] at hbody
                by_cases hpe : pyEq (.dict d1) (.dict d2) = true
                · exact ⟨dmp, rc, rfs, d1, d2, rfl, h2, hin, rfl, h4, hpe⟩
                · rw [if_neg hpe] at hbody
                  cases h5 : stringify s rc rfs with
                  | error e => rw [h5] at hbody; simp at hbody
                  | ok u2 => rw [h5] at hbody; simp at hbody
          · rw [if_pos hin] at hbody
            simp at hbody
        | none => simp at hbody
        | bool x => simp at hbody
        | int x => simp at hbody
        | float x => simp at hbody
        | str x => simp at hbody
        | bytes x => simp at hbody
        | datetime x => simp at hbody
        | list x => simp at hbody
        | dict x => simp at hbody

/-- **C4** (witness): a concrete run of the amended statement. -/
theorem c4_success_instance_and_equal_dicts_witness :
    check_telethon_obj_serialization subclassState subClassB [("x", .int 1)] = .ok true
    ∧ ∃ dmp rc rfs d1 d2,
        tl_obj_to_string subclassState subClassB [("x", .int 1)] false Option.none = .ok dmp
        ∧ tl_obj_from_string subclassState dmp = .ok (.obj rc rfs)
        ∧ isinstanceOf rc subClassB = true
        ∧ callObjToDict subclassState subClassB [("x", .int 1)] = .ok d1
        ∧ callObjToDict subclassState rc rfs = .ok d2
        ∧ pyEq (.dict d1) (.dict d2) = true :=
  ⟨rfl, c4_success_instance_and_equal_dicts subclassState subClassB [("x", .int 1)] rfl⟩

/-- **C6** (counterexample): a document in which some mapping's reserved
key `"_"` holds the unregistered string `"Bogus"` can nevertheless be
decoded successfully: the mapping also carries a non-null `"_isoformat"`
key, so the object hook replaces the whole mapping by a timestamp before
the registry is ever consulted. -/
theorem c6_counterexample :
    tl_obj_from_string sampleState
      ⟨.obj [("_", .str "m.C"),
             ("f", .obj [("_", .str "Bogus"), ("_isoformat", .str (datetime_isoformat 3))]),
             ("g", .null)], true, Option.none⟩
      = .ok (.obj sampleClass [("f", .datetime 3), ("g", .none)])
    ∧ assocGet sampleState.class_cache "Bogus" = Option.none :=
  ⟨rfl, rfl⟩

/-- **C6** (amended): decoding a JSON document whose top-level mapping
carries `"_"` with a string value that is not a registered Type
Identifier fails with the registry-lookup `ValueError` (`unknown
class`), provided the mapping is not intercepted by the scalar codec
(no `"_isoformat"`/`"_base64"` keys) and the remaining content is plain
(reserved-key-free with duplicate-free keys), so that no other decode
error precedes the lookup. -/
theorem c6_unknown_tag_rejected (s : PatchState) (es : List (String × Json)) (t : String)
    (ea : Bool) (ind : Option Nat)
    (hp : s.patch_called = true)
    (hnd : nodupKeys (keysOf es) = true)
    (htag : assocGet es "_" = some (Json.str t))
    (hunk : assocGet s.class_cache t = Option.none)
    (hclean : ∀ kv ∈ es, ¬ kv.1 = "_isoformat" ∧ ¬ kv.1 = "_base64" ∧ plainDoc kv.2 = true) :
    tl_obj_from_string s ⟨Json.obj es, ea, ind⟩
      = .error (.valueError ("unknown class: " ++ t)) := by
  obtain ⟨ws, hl, hr, hk, ha⟩ := plainEntriesLR s es (fun kv hkv => (hclean kv hkv).2.2)
  have hndws : nodupKeys (keysOf ws) = true := by rw [hk]; exact hnd
  have hiso : assocGet ws "_isoformat" = Option.none := by
    apply assocGet_of_not_mem
    rw [hk]
    intro hmem
    obtain ⟨kv, hkv, hfst⟩ := List.mem_map.mp hmem
    exact (hclean kv hkv).1 hfst
  have hb64 : assocGet ws "_base64" = Option.none := by
    apply assocGet_of_not_mem
    rw [hk]
    intro hmem
    obtain ⟨kv, hkv, hfst⟩ := List.mem_map.mp hmem
    exact (hclean kv hkv).2.1 hfst
  obtain ⟨w, hwg, hlw⟩ := ha "_" (Json.str t) htag
  have hwt : w = .str t := by
    simp only [json_loads_val, Except.ok.injEq] at hlw
    exact hlw.symm
  subst hwt
  have hhook : object_hook_json_helper ws = .ok (.dict ws) := hook_plain_dict ws hiso hb64
  have hcls : get_telethon_class s t = .error (.valueError ("unknown class: " ++ t)) := by
    simp [get_telethon_class, _check_patch_was_applied, hp, hunk]
  have hrest : restore_instance s (.dict ws) = .error (.valueError ("unknown class: " ++ t)) := by
    simp [restore_instance, hr, hwg, hcls]
  simp [tl_obj_from_string, _check_patch_was_applied, hp, json_loads_val, hl,
    dedupEntries_eq_self ws hndws, hhook, hrest]

/-- **C6** (witness): a concrete rejected document. -/
theorem c6_unknown_tag_rejected_witness :
    assocGet sampleState.class_cache "Nope" = Option.none
    ∧ tl_obj_from_string sampleState
        ⟨Json.obj [("_", Json.str "Nope"), ("x", Json.num 1)], true, Option.none⟩
      = .error (.valueError ("unknown class: " ++ "Nope")) :=
  ⟨rfl, c6_unknown_tag_rejected sampleState [("_", Json.str "Nope"), ("x", Json.num 1)]
    "Nope" true Option.none rfl rfl rfl rfl
    (by
      intro kv hkv
      rcases List.mem_cons.mp hkv with rfl | hkv2
      · exact ⟨by decide, by decide, rfl⟩
      rcases List.mem_cons.mp hkv2 with rfl | hkv3
      · exact ⟨by decide, by decide, rfl⟩
      cases hkv3)⟩

/-- **C9** (counterexample): a document containing an object with a
non-null `"_base64"` key and no `"encoded"` key need not fail with a
`KeyError`: when the object also carries a non-null `"_isoformat"` key,
the hook turns it into a timestamp and decoding fails with the named
deserialization `TypeError` (top-level value not a `TLObject`) instead. -/
theorem c9_counterexample :
    tl_obj_from_string sampleState
      ⟨Json.obj [("_base64", Json.bool true), ("_isoformat", Json.str (datetime_isoformat 3))],
        true, Option.none⟩
      = .error (.typeError "restored object is not descendant of TLObject") := rfl

/-- **C9** (amended): decoding a document whose top-level object has a
non-null `"_base64"` value, lacks the `"encoded"` key, has no non-null
`"_isoformat"` key, and whose entry values are otherwise plain, fails
with the unguarded key-lookup `KeyError` on `"encoded"` — an exception
outside the deserialization error taxonomy. -/
theorem c9_missing_encoded_keyerror (s : PatchState) (es : List (String × Json)) (b : Json)
    (ea : Bool) (ind : Option Nat)
    (hp : s.patch_called = true)
    (hnd : nodupKeys (keysOf es) = true)
    (hplain : ∀ kv ∈ es, plainDoc kv.2 = true)
    (hiso : ∀ v, assocGet es "_isoformat" = some v → v = Json.null)
    (hb64 : assocGet es "_base64" = some b)
    (hbn : ¬ b = Json.null)
    (henc : assocGet es "encoded" = Option.none) :
    tl_obj_from_string s ⟨Json.obj es, ea, ind⟩ = .error (.keyError "encoded") := by
  obtain ⟨ws, hl, hr, hk, ha⟩ := plainEntriesLR s es hplain
  have hndws : nodupKeys (keysOf ws) = true := by rw [hk]; exact hnd
  have hisoD : (assocGet ws "_isoformat").getD PyVal.none = PyVal.none := by
    cases hq : assocGet es "_isoformat" with
    | none =>
      have hnone : assocGet ws "_isoformat" = Option.none := by
        apply assocGet_of_not_mem
        rw [hk]
        exact assocGet_none_not_mem _ es hq
      rw [hnone]
      rfl
    | some v =>
      have hv := hiso v hq
      subst hv
      obtain ⟨w, hwg, hlw⟩ := ha "_isoformat" Json.null hq
      have hwn : w = PyVal.none := by
        simp only [json_loads_val, Except.ok.injEq] at hlw
        exact hlw.symm
      simp [hwg, hwn]
  obtain ⟨wb, hwbg, hlwb⟩ := ha "_base64" b hb64
  have hwbn : ¬ wb = PyVal.none := by
    intro hcontra
    subst hcontra
    exact hbn (json_loads_val_none b hlwb)
  have hencw : assocGet ws "encoded" = Option.none := by
    apply assocGet_of_not_mem
    rw [hk]
    exact assocGet_none_not_mem _ es henc
  have hhook : object_hook_json_helper ws = .error (.keyError "encoded") := by
    have hpb : pyIsNone ((assocGet ws "_base64").getD PyVal.none) = false := by
      rw [hwbg]
      cases wb with
      | none => exact absurd rfl hwbn
      | bool x => rfl
      | int x => rfl
      | float x => rfl
      | str x => rfl
      | bytes x => rfl
      | datetime x => rfl
      | list x => rfl
      | dict x => rfl
      | obj x y => rfl
    simp only [pyIsNone] at hpb
    simp [object_hook_json_helper, hisoD, hpb, hencw, pyIsNone]
  simp [tl_obj_from_string, _check_patch_was_applied, hp, json_loads_val, hl,
    dedupEntries_eq_self ws hndws, hhook]

/-- **C9** (witness): a concrete document failing with the `KeyError`. -/
theorem c9_missing_encoded_keyerror_witness :
    assocGet [("_base64", Json.bool true)] "_base64" = some (Json.bool true)
    ∧ tl_obj_from_string sampleState
        ⟨Json.obj [("_base64", Json.bool true)], true, Option.none⟩
      = .error (.keyError "encoded") :=
  ⟨rfl, c9_missing_encoded_keyerror sampleState [("_base64", Json.bool true)] (Json.bool true)
    true Option.none rfl rfl
    (by
      intro kv hkv
      rcases List.mem_cons.mp hkv with rfl | hkv2
      · rfl
      cases hkv2)
    (by intro v hv; cases hv)
    rfl
    (by intro hc; cases hc)
    rfl⟩
